import Mathlib

/-!
Verification development for the AURA dispatch pipeline
(`src/aura`): prototype-linked objects stored in ArangoDB, a bounded
graph-walk method resolver, a sandboxed executor service, a static
security auditor, and the `doesNotUnderstand` generate-audit-install
loop of the Orchestrator.  Each Python component is shallowly embedded
as an executable Lean definition; theorems check the specification's
claims against those definitions.
-/

set_option maxRecDepth 4096

namespace Aura

/-! ## JSON-like values

Attribute values are arbitrary JSON-structured data (scalar, string,
list, nested mapping), as stored in ArangoDB documents and carried in
sandbox payloads. -/

inductive Value where
  | vNull : Value
  | vBool : Bool → Value
  | vInt : Int → Value
  | vStr : String → Value
  | vList : List Value → Value
  | vObj : List (String × Value) → Value

/-- Attribute mapping of an object: JSON object field list. -/
abbrev Attrs := List (String × Value)

/-- Lookup of a field in a JSON object (first binding wins). -/
def lookupField (fields : List (String × Value)) (k : String) : Option Value :=
  match fields with
  | [] => none
  | (k', v) :: rest => if k' = k then some v else lookupField rest k

mutual

/-- ArangoDB `mergeObjects` patch semantics (server default for
`update`): when both the existing value and the patch value are JSON
objects they are merged recursively, otherwise the patch value
replaces the existing one. -/
def mergeValue : Value → Value → Value
  | Value.vObj o, Value.vObj n =>
    Value.vObj (mergeOld o n ++ n.filter (fun kv => (lookupField o kv.1).isNone))
  | _, b => b

/-- Fields of the old object keep their place; a field also bound in
the patch is merged with the patch's value. -/
def mergeOld : List (String × Value) → List (String × Value) → List (String × Value)
  | [], _ => []
  | (k, v) :: rest, n =>
    (k, match lookupField n k with
        | some nv => mergeValue v nv
        | none => v) :: mergeOld rest n

end

/-- Merge of two JSON field lists: the old fields (patched where the
patch binds them) followed by the patch's new fields. -/
def mergeFields (o n : List (String × Value)) : List (String × Value) :=
  mergeOld o n ++ n.filter (fun kv => (lookupField o kv.1).isNone)

theorem mergeFields_nil (n : List (String × Value)) :
    mergeFields [] n = n := by
  simp [mergeFields, mergeOld, List.filter_eq_self]
  intro a _
  simp [lookupField]

/-- Python-dict style insert-or-replace: an existing binding is
overwritten in place, a new key is appended at the end. -/
def setField (fs : List (String × Value)) (k : String) (v : Value) : List (String × Value) :=
  match fs with
  | [] => [(k, v)]
  | (k1, v1) :: rest => if k1 = k then (k, v) :: rest else (k1, v1) :: setField rest k v

/-- Lookup in a string-valued mapping (method name → source text). -/
def lookupStr (fs : List (String × String)) (k : String) : Option String :=
  match fs with
  | [] => none
  | (k1, v) :: rest => if k1 = k then some v else lookupStr rest k

/-! ## Sandboxed Executor — `services/execution_sandbox/main.py`

The service receives `{code, method_name, object_state, args, kwargs}`,
deep-copies `object_state` into a `SandboxObject` proxy whose
`_p_changed` flag starts `False`, `exec`s the code, calls the method,
and answers `{output, state_changed, final_state, error}`. -/

/-- The proxy handed to the body as `self`: the working copy of the
attribute state plus the `_p_changed` covenant flag. -/
structure SandboxObject where
  attributes : Attrs
  p_changed : Bool

/-- Semantics of one Python method body as the sandbox runs it: given
the call arguments and the proxy object, it yields the final proxy
object together with either the returned output (`Except.ok`) or the
message of the exception it raised (`Except.error`).  A failure of
`exec` itself, or a missing/non-callable method after `exec`, is a run
that raises before touching the proxy. -/
structure PyBody where
  run : List Value → List (String × Value) → SandboxObject → SandboxObject × Except String Value

/-- The JSON body the sandbox endpoint answers with. -/
structure SandboxResponse where
  output : Option Value
  state_changed : Bool
  final_state : Attrs
  error : Option String

/-- `execute_code` of the sandbox service.  The working copy is a deep
copy of the payload state, so the payload state itself is never
mutated; on an exception the response carries the untouched payload
state and discards the working copy. -/
def execute_code (body : PyBody) (args : List Value) (kwargs : List (String × Value))
    (object_state : Attrs) : SandboxResponse :=
  let sandbox_self : SandboxObject := { attributes := object_state, p_changed := false }
  match body.run args kwargs sandbox_self with
  | (fin, Except.ok out) =>
    { output := some out
      state_changed := fin.p_changed
      final_state := fin.attributes
      error := none }
  | (_, Except.error e) =>
    { output := none
      state_changed := false
      final_state := object_state
      error := some e }

/-! ## Security Auditor — `src/core/security.py`

`PersistenceGuardian.audit` parses the candidate source with
`ast.parse` and walks every node, rejecting on node types
`{Import, ImportFrom, Delete}`, on `Name` ids and `Attribute` attrs in
a fixed identifier denylist, and on a `SyntaxError` from parsing.  We
embed the Python AST shape the audit inspects; parsing itself is
represented by its result. -/

/-- Python abstract syntax as `ast.walk` sees it: the node kinds the
auditor distinguishes, plus a generic node for every other kind
(keeping its children, which `ast.walk` still visits). -/
inductive PyAst where
  | importNode : List String → PyAst
  | importFrom : Option String → List String → PyAst
  | deleteNode : List PyAst → PyAst
  | nameNode : String → PyAst
  | attributeNode : PyAst → String → PyAst
  | other : String → List PyAst → PyAst

/-- Result of `ast.parse`: a `SyntaxError` or a tree. -/
inductive ParseResult where
  | syntaxError : ParseResult
  | parsed : PyAst → ParseResult

mutual

/-- `ast.walk`: the node itself and all of its descendants. -/
def PyAst.walk : PyAst → List PyAst
  | PyAst.importNode ms => [PyAst.importNode ms]
  | PyAst.importFrom mod ns => [PyAst.importFrom mod ns]
  | PyAst.deleteNode ts => PyAst.deleteNode ts :: PyAst.walkAll ts
  | PyAst.nameNode id => [PyAst.nameNode id]
  | PyAst.attributeNode v a => PyAst.attributeNode v a :: v.walk
  | PyAst.other kind cs => PyAst.other kind cs :: PyAst.walkAll cs

/-- Walk of a list of subtrees, in order. -/
def PyAst.walkAll : List PyAst → List PyAst
  | [] => []
  | t :: ts => t.walk ++ PyAst.walkAll ts

end

/-- `PersistenceGuardian.name_denylist`: the fixed identifier denylist. -/
def name_denylist : List String :=
  ["open", "eval", "exec", "exit", "quit",
   "__import__", "os", "sys", "subprocess", "shutil", "socket"]

/-- One step of the audit loop body: is this node rejected?  Mirrors
`type(node) in self.denylist` for `{Import, ImportFrom, Delete}` and
the `Name`/`Attribute` denylist membership checks. -/
def bannedNode : PyAst → Bool
  | PyAst.importNode _ => true
  | PyAst.importFrom _ _ => true
  | PyAst.deleteNode _ => true
  | PyAst.nameNode id => name_denylist.contains id
  | PyAst.attributeNode _ a => name_denylist.contains a
  | PyAst.other _ _ => false

/-- `PersistenceGuardian.audit`: `False` on `SyntaxError`; otherwise
walk the tree and return `False` as soon as a node is rejected, else
`True`. -/
def audit : ParseResult → Bool
  | ParseResult.syntaxError => false
  | ParseResult.parsed tree => !(tree.walk.any bannedNode)

/-- Does the walked tree contain an import / module-loading construct
(`Import` or `ImportFrom`)? -/
def containsImport (t : PyAst) : Bool :=
  t.walk.any fun n =>
    match n with
    | PyAst.importNode _ => true
    | PyAst.importFrom _ _ => true
    | _ => false

/-- Does the walked tree contain a deletion statement (`Delete`)? -/
def containsDelete (t : PyAst) : Bool :=
  t.walk.any fun n =>
    match n with
    | PyAst.deleteNode _ => true
    | _ => false

/-- Does the walked tree reference a denylisted identifier, either as
a bare `Name` or as an `Attribute` access? -/
def referencesDenied (t : PyAst) : Bool :=
  t.walk.any fun n =>
    match n with
    | PyAst.nameNode id => name_denylist.contains id
    | PyAst.attributeNode _ a => name_denylist.contains a
    | _ => false

/-! ## Object Store — the ArangoDB collections

`UvmObjects` holds documents `{_key, attributes, methods}`;
`PrototypeLinks` holds the outbound delegation edges between them. -/

/-- A stored `UvmObjects` document. -/
structure StoreObj where
  attributes : Attrs
  methods : List (String × String)

/-- The persistent state: the document collection plus the ordered
outbound `PrototypeLinks` edges (child key → parent key). -/
structure Store where
  objects : List (String × StoreObj)
  edges : List (String × String)

/-- Point lookup of a document by `_key`. -/
def Store.getObj (s : Store) (k : String) : Option StoreObj :=
  match s.objects.find? (fun kv => kv.1 = k) with
  | some kv => some kv.2
  | none => none

/-- Outbound prototype neighbours of a vertex, in edge order. -/
def Store.parents (s : Store) (k : String) : List String :=
  (s.edges.filter (fun e => e.1 = k)).map (fun e => e.2)

/-- `DbClient.install_method`: `update({_key, methods: {m: code}},
merge_objects=True)` — the one method is added or overwritten inside
the `methods` mapping, the rest of the document is untouched. -/
def Store.installMethod (s : Store) (k m code : String) : Store :=
  { s with
    objects := s.objects.map fun kv =>
      if kv.1 = k then
        (kv.1,
         { kv.2 with
           methods :=
             if (lookupStr kv.2.methods m).isSome then
               kv.2.methods.map (fun e => if e.1 = m then (m, code) else e)
             else
               kv.2.methods ++ [(m, code)] })
      else kv }

/-- The `update({_key, attributes: patch})` call that persists a
mutated attribute mapping: ArangoDB applies its server-default
`mergeObjects=true` patch semantics, so the stored `attributes` object
becomes the recursive merge of the old object with the patch. -/
def Store.updateAttrsMerge (s : Store) (k : String) (patch : Attrs) : Store :=
  { s with
    objects := s.objects.map fun kv =>
      if kv.1 = k then
        (kv.1, { kv.2 with attributes := mergeFields kv.2.attributes patch })
      else kv }

/-! ## Method resolution — `DbClient.resolve_and_execute_method`, AQL part

```
FOR v IN 0..100 OUTBOUND @start_node PrototypeLinks
  FILTER HAS(v.methods, @method_name)
  LIMIT 1
  RETURN { obj: v, code: v.methods[@method_name] }
```

A depth-first walk over the prototype graph emitting vertices of
depth 0 through 100 in pre-order; the first emitted vertex whose
`methods` mapping contains the name wins.  The fixed depth bound
makes the walk finite on any graph, cyclic ones included. -/

/-- The bounded walk: `fuel` is the number of depth levels still
allowed (the current vertex included), so `fuel = 101` explores
depths `0..100`. -/
def resolveAux (s : Store) (m : String) : Nat → String → Option (String × StoreObj × String)
  | 0, _ => none
  | fuel + 1, k =>
    match s.getObj k with
    | none => none
    | some obj =>
      match lookupStr obj.methods m with
      | some code => some (k, obj, code)
      | none => (s.parents k).findSome? (fun p => resolveAux s m fuel p)

/-- The resolver as the AQL query runs it: depths `0..100` from the
start vertex; an empty result set is a resolution miss. -/
def resolve (s : Store) (startId m : String) : Option (String × StoreObj × String) :=
  resolveAux s m 101 startId

/-- Every vertex key the bounded walk may visit (whether or not a
document exists for it): the current key plus the keys within one
fewer level from each parent. -/
def withinKeys (s : Store) : Nat → String → List String
  | 0, _ => []
  | fuel + 1, k => k :: (s.parents k).flatMap (withinKeys s fuel)

/-- The method body the store declares at one vertex, if any:
`HAS(v.methods, m)` together with `v.methods[m]`. -/
def methodAt (s : Store) (k m : String) : Option String :=
  match s.getObj k with
  | some o => lookupStr o.methods m
  | none => none

/-! ## `DbClient.resolve_and_execute_method`, execution and persistence

After resolution the client posts
`{code, method_name, object_state: source.attributes, args, kwargs}`
to the sandbox endpoint.  A transport/HTTP failure, and equally a
response whose `error` field is set, make the whole call return
`None` — the same value as a resolution miss.  On
`state_changed` the client writes `final_state` back to the
*declaring* document and reports the result. -/

/-- The JSON payload posted to the sandbox endpoint. -/
structure SandboxPayload where
  code : String
  method_name : String
  object_state : Attrs
  args : List Value
  kwargs : List (String × Value)

/-- `MethodExecutionResult` named tuple of `db_client.py`. -/
structure MethodExecutionResult where
  output : Option Value
  state_changed : Bool
  source_object_id : String

/-- Observable effects of one pipeline run, for stating where bodies
and states flow: each sandbox post, each attribute write-back, each
method installation, each generator/auditor call, each re-dispatch. -/
inductive Event where
  | sandboxPost : SandboxPayload → Event
  | persistAttrs : String → Attrs → Event
  | installCall : String → String → String → Event
  | generateCall : String → String → Event
  | auditCall : String → Bool → Event
  | redispatch : String → String → Event

/-- The remote sandbox endpoint as the client sees it: `none` is a
transport or HTTP-status failure (the `except` branches), `some r`
the decoded JSON body. -/
def SandboxCall : Type := SandboxPayload → Option SandboxResponse

/-- `DbClient.resolve_and_execute_method`.  Returns the optional
result exactly as the Python does — `None` covers the miss, the
transport failure and the sandbox-reported execution error alike —
together with the store after any write-back and the effect trace. -/
def resolve_and_execute_method (sandbox : SandboxCall) (s : Store)
    (start_object_id method_name : String) (args : List Value)
    (kwargs : List (String × Value)) :
    Option MethodExecutionResult × Store × List Event :=
  match resolve s start_object_id method_name with
  | none => (none, s, [])
  | some (srcKey, srcObj, code) =>
    let payload : SandboxPayload :=
      { code := code
        method_name := method_name
        object_state := srcObj.attributes
        args := args
        kwargs := kwargs }
    match sandbox payload with
    | none => (none, s, [Event.sandboxPost payload])
    | some resp =>
      if resp.error.isSome then
        (none, s, [Event.sandboxPost payload])
      else if resp.state_changed then
        (some { output := resp.output
                state_changed := resp.state_changed
                source_object_id := "UvmObjects/" ++ srcKey },
         s.updateAttrsMerge srcKey resp.final_state,
         [Event.sandboxPost payload, Event.persistAttrs srcKey resp.final_state])
      else
        (some { output := resp.output
                state_changed := resp.state_changed
                source_object_id := "UvmObjects/" ++ srcKey },
         s,
         [Event.sandboxPost payload])

/-- `DbClient.get_object`: fetch the document and deserialize it via
`UvmObject.from_doc`; here we expose the fields the claims inspect. -/
def Store.get_object (s : Store) (k : String) : Option StoreObj :=
  s.getObj k

/-! ## Orchestrator — `src/core/orchestrator.py`

`process_message` resolves-and-executes; a `None` result sends the
request into `does_not_understand`, which generates code, audits it,
installs it on success and re-issues the original message through
`process_message`.  The mutual recursion of the two Python methods is
embedded with an explicit recursion budget (`fuel`); exhausting it
yields a distinguished outcome that no real run of the claims below
reaches. -/

mutual

/-- Python `str()` of a value, as used when the arguments are
formatted into the creative mandate (approximate quoting). -/
def printValue : Value → String
  | Value.vNull => "None"
  | Value.vBool b => cond b "True" "False"
  | Value.vInt n => toString n
  | Value.vStr s => s
  | Value.vList xs => "[" ++ printValues xs ++ "]"
  | Value.vObj fs => "\x7b" ++ printFields fs ++ "\x7d"

def printValues : List Value → String
  | [] => ""
  | [v] => printValue v
  | v :: vs => printValue v ++ ", " ++ printValues vs

def printFields : List (String × Value) → String
  | [] => ""
  | [(k, v)] => k ++ ": " ++ printValue v
  | (k, v) :: fs => k ++ ": " ++ printValue v ++ ", " ++ printFields fs

end

/-- The creative mandate string `does_not_understand` builds:
`f"Implement method '{name}' with args {args} and kwargs {kwargs}"`. -/
def mandateOf (method_name : String) (args : List Value)
    (kwargs : List (String × Value)) : String :=
  "Implement method \x27" ++ method_name ++ "\x27 with args [" ++ printValues args ++
    "] and kwargs \x7b" ++ printFields kwargs ++ "\x7d"

/-- The external collaborators and failure switches of one run: the
sandbox endpoint, the code generator (`""` plays Python falsy — the
`if not generated_code` branch), `ast.parse` on generated text, and
whether the installation update succeeds on the store. -/
structure Env where
  sandbox : SandboxCall
  gen : String → String → String
  parse : String → ParseResult
  installOk : String → String → Bool

/-- Typed outcome handed back to the caller: the success dictionary
`{"output", "state_changed"}`, one of the `{"error": …}`
dictionaries, or the model-only fuel-exhaustion marker. -/
inductive Outcome where
  | success : Option Value → Bool → Outcome
  | errorMsg : String → Outcome
  | outOfFuel : Outcome

/-- The body of `Orchestrator.does_not_understand`, parameterized by
the re-dispatch continuation (`self.process_message` in the source):
generate, audit, install, re-issue. -/
def does_not_understand_step (env : Env)
    (retry : Store → String → String → List Value → List (String × Value) →
      Outcome × Store × List Event)
    (s : Store) (target_id failed_method_name : String) (args : List Value)
    (kwargs : List (String × Value)) : Outcome × Store × List Event :=
  let mandate := mandateOf failed_method_name args kwargs
  let generated_code := env.gen mandate failed_method_name
  if generated_code = "" then
    (Outcome.errorMsg "Code generation failed", s,
     [Event.generateCall failed_method_name generated_code])
  else if audit (env.parse generated_code) then
    if env.installOk target_id failed_method_name then
      let s1 := s.installMethod target_id failed_method_name generated_code
      let r := retry s1 target_id failed_method_name args kwargs
      (r.1, r.2.1,
       [Event.generateCall failed_method_name generated_code,
        Event.auditCall generated_code true,
        Event.installCall target_id failed_method_name generated_code,
        Event.redispatch target_id failed_method_name] ++ r.2.2)
    else
      (Outcome.errorMsg "Method installation failed", s,
       [Event.generateCall failed_method_name generated_code,
        Event.auditCall generated_code true])
  else
    (Outcome.errorMsg "Security audit failed", s,
     [Event.generateCall failed_method_name generated_code,
      Event.auditCall generated_code false])

/-- `Orchestrator.process_message`: resolve-and-execute; on `None`
hand the request to `does_not_understand`, whose retry re-enters
`process_message` with one unit of fuel spent. -/
def process_message (env : Env) :
    Nat → Store → String → String → List Value → List (String × Value) →
      Outcome × Store × List Event
  | 0, s, _, _, _, _ => (Outcome.outOfFuel, s, [])
  | fuel + 1, s, target_id, method_name, args, kwargs =>
    let r := resolve_and_execute_method env.sandbox s target_id method_name args kwargs
    match r.1 with
    | none =>
      let d := does_not_understand_step env
        (fun s2 t2 m2 a2 k2 => process_message env fuel s2 t2 m2 a2 k2)
        r.2.1 target_id method_name args kwargs
      (d.1, d.2.1, r.2.2 ++ d.2.2)
    | some res => (Outcome.success res.output res.state_changed, r.2.1, r.2.2)

/-- `Orchestrator.does_not_understand` itself: the step with the real
`process_message` as its re-dispatch continuation. -/
def does_not_understand (env : Env) (fuel : Nat) (s : Store)
    (target_id failed_method_name : String) (args : List Value)
    (kwargs : List (String × Value)) : Outcome × Store × List Event :=
  does_not_understand_step env
    (fun s2 t2 m2 a2 k2 => process_message env fuel s2 t2 m2 a2 k2)
    s target_id failed_method_name args kwargs

/-! ## `UvmObject` — `src/core/uvm.py`

The in-process object model traps attribute assignment and fallback
lookup.  An instance owns its Python instance dictionary; for a
`UvmObject` that dictionary holds the underscore-prefixed slots
(`_id`, `_key`, `_p_changed`, and anything else assigned with a
leading underscore) next to the `attributes` and `methods` mappings,
which we keep as typed fields.  Class-level helpers (`to_doc`,
`from_doc`) are serialization plumbing outside the attribute-state
model. -/

/-- Python `name.startswith("_")`: the first character is an
underscore. -/
def startsWithUnderscore (name : String) : Bool :=
  match name.data with
  | [] => false
  | c :: _ => c = '_'

/-- A `UvmObject` instance. -/
structure UvmObject where
  slots : List (String × Value)
  attributes : Attrs
  methods : List (String × String)

/-- The `_p_changed` flag as stored in the instance dictionary. -/
def UvmObject.pFlag (o : UvmObject) : Option Value :=
  lookupField o.slots "_p_changed"

/-- The fields of a JSON-object value; bodies only ever assign
mapping values to `attributes`, so other shapes do not occur. -/
def objFieldsOf : Value → Attrs
  | Value.vObj fs => fs
  | _ => []

/-- The string-valued fields of a JSON-object value; bodies only ever
assign mappings of source strings to `methods`. -/
def strFieldsOf : Value → List (String × String) :=
  fun v => (objFieldsOf v).filterMap fun kv =>
    match kv.2 with
    | Value.vStr s => some (kv.1, s)
    | _ => none

/-- `UvmObject.__setattr__`: names starting with an underscore and
the names `attributes`/`methods` go through `super().__setattr__`
(the instance dictionary / the field itself); every other name is
inserted into the `attributes` mapping and `self._p_changed = True`
is recorded (that inner assignment re-enters `__setattr__` and lands
in the instance dictionary). -/
def UvmObject.setAttr (o : UvmObject) (name : String) (v : Value) : UvmObject :=
  if startsWithUnderscore name then
    { o with slots := setField o.slots name v }
  else if name = "attributes" then
    { o with attributes := objFieldsOf v }
  else if name = "methods" then
    { o with methods := strFieldsOf v }
  else
    { o with
      attributes := setField o.attributes name v
      slots := setField o.slots "_p_changed" (Value.vBool true) }

/-- What an attribute read can produce. -/
inductive GetAttrResult where
  | value : Value → GetAttrResult
  | attrsSelf : Attrs → GetAttrResult
  | methodsSelf : List (String × String) → GetAttrResult
  | boundClassMethod : String → GetAttrResult
  | methodPlaceholder : GetAttrResult
  | attrError : GetAttrResult

/-- The non-underscore attributes of the `UvmObject` class body
itself: the helpers `to_doc` and `from_doc` (`uvm.py:55,65`).  They
are plain functions — non-data descriptors — so Python consults them
after an instance-dictionary miss and *before* `__getattr__`: a read
of one of these names returns the bound class method, shadowing any
entry the `attributes` mapping may hold. -/
def uvmClassAttrs : List String := ["to_doc", "from_doc"]

/-- `UvmObject.__getattr__`, the delegation fallback that Python
calls only when ordinary lookup fails: the `attributes` mapping
first, then a placeholder for a name in `methods`, else the
`AttributeError` that signals `doesNotUnderstand`. -/
def UvmObject.getattrFallback (o : UvmObject) (name : String) : GetAttrResult :=
  match lookupField o.attributes name with
  | some v => GetAttrResult.value v
  | none =>
    if (lookupStr o.methods name).isSome then
      GetAttrResult.methodPlaceholder
    else
      GetAttrResult.attrError

/-- A full attribute read on a `UvmObject` instance, following
Python's lookup order: the instance dictionary first
(`attributes`/`methods` themselves, then the underscore slots), then
the class dictionary (the non-data descriptors `to_doc`/`from_doc`,
returned as bound methods), and only on a complete miss the
`__getattr__` fallback. -/
def UvmObject.getAttr (o : UvmObject) (name : String) : GetAttrResult :=
  if name = "attributes" then
    GetAttrResult.attrsSelf o.attributes
  else if name = "methods" then
    GetAttrResult.methodsSelf o.methods
  else
    match lookupField o.slots name with
    | some v => GetAttrResult.value v
    | none =>
      if uvmClassAttrs.contains name then
        GetAttrResult.boundClassMethod name
      else
        o.getattrFallback name

/-- The instance dictionary of a `UvmObject` holds only
underscore-prefixed names outside `attributes`/`methods`; every
object built by `__init__` and mutated through `__setattr__` keeps
this shape. -/
def UvmObject.slotsWF (o : UvmObject) : Prop :=
  ∀ kv ∈ o.slots, startsWithUnderscore kv.1 = true

/-- `UvmObject.__init__(doc_id, key, attributes, methods)`: the five
assignments it performs, each routed through `__setattr__`. -/
def UvmObject.init (doc_id key : Option Value) (attrs : Attrs)
    (methods : List (String × String)) : UvmObject :=
  { slots :=
      [("_id", doc_id.getD Value.vNull),
       ("_key", key.getD Value.vNull),
       ("_p_changed", Value.vBool false)]
    attributes := attrs
    methods := methods }

/-! ## Concrete bodies and endpoints used by witnesses -/

/-- A body that writes `self.attributes["x"] = 1` and returns `None`
without touching `_p_changed` — legal Python, since `SandboxObject`
is a plain class with no assignment trap. -/
def bodyMutateNoFlag : PyBody :=
  { run := fun _ _ s =>
      ({ s with attributes := setField s.attributes "x" (Value.vInt 1) },
       Except.ok Value.vNull) }

/-- A body that first half-mutates the working copy (an attribute
write and `self._p_changed = True`) and then raises. -/
def bodyRaise : PyBody :=
  { run := fun _ _ s =>
      ({ attributes := setField s.attributes "x" (Value.vInt 9), p_changed := true },
       Except.error "ZeroDivisionError: division by zero") }

/-- A sandbox endpoint that reaches the service and runs the given
body — the composition of the HTTP hop with `execute_code`. -/
def sandboxOf (body : PyBody) : SandboxCall :=
  fun p => some (execute_code body p.args p.kwargs p.object_state)

/-! ## Claim theorems -/

/-- Claim C3, counterexample: a body that changes the attribute
mapping without setting the covenant flag is reported with
`state_changed = false` although the post-execution mapping differs
by value from the pre-execution snapshot — `state_changed` is not
the differs-by-value comparison the claim states. -/
theorem C3_counterexample :
    ¬ (((execute_code bodyMutateNoFlag [] [] []).state_changed = true) ↔
        (execute_code bodyMutateNoFlag [] [] []).final_state ≠ ([] : Attrs)) := by
  intro h
  have h2 : (execute_code bodyMutateNoFlag [] [] []).final_state ≠ ([] : Attrs) := by
    simp [execute_code, bodyMutateNoFlag, setField]
  have h3 := h.mpr h2
  simp [execute_code, bodyMutateNoFlag, setField] at h3

/-- Claim C3 as amended: on a successful run the sandbox reports
`state_changed` equal to the final value of the body-controlled
`_p_changed` flag (initialized to `false`), and always returns the
working copy's post-execution attribute mapping as `final_state` —
mutation is reported iff the body set the flag, independently of
whether the mappings differ by value. -/
theorem C3_state_changed_is_covenant_flag (body : PyBody) (args : List Value)
    (kwargs : List (String × Value)) (st : Attrs) (fin : SandboxObject) (out : Value)
    (h : body.run args kwargs { attributes := st, p_changed := false } =
      (fin, Except.ok out)) :
    execute_code body args kwargs st =
      { output := some out
        state_changed := fin.p_changed
        final_state := fin.attributes
        error := none } := by
  simp [execute_code, h]

/-- Witness for `C3_state_changed_is_covenant_flag` at the concrete
flag-less mutating body on the empty snapshot. -/
theorem C3_state_changed_is_covenant_flag_witness :
    execute_code bodyMutateNoFlag [] [] [] =
      { output := some Value.vNull
        state_changed := false
        final_state := [("x", Value.vInt 1)]
        error := none } :=
  C3_state_changed_is_covenant_flag bodyMutateNoFlag [] [] []
    { attributes := [("x", Value.vInt 1)], p_changed := false } Value.vNull rfl

/-- Claim C9: when the body raises, the sandbox answers exactly
`output = null`, `state_changed = false`, and `final_state` equal to
the attribute mapping submitted in the request — the working copy
(a deep copy of the input) is discarded together with any partial
mutation. -/
theorem C9_error_path (body : PyBody) (args : List Value)
    (kwargs : List (String × Value)) (st : Attrs) (fin : SandboxObject) (e : String)
    (h : body.run args kwargs { attributes := st, p_changed := false } =
      (fin, Except.error e)) :
    execute_code body args kwargs st =
      { output := none
        state_changed := false
        final_state := st
        error := some e } := by
  simp [execute_code, h]

/-- Witness for `C9_error_path`: the raising body half-mutates its
working copy, yet the response carries the submitted snapshot. -/
theorem C9_error_path_witness :
    execute_code bodyRaise [] [] [("a", Value.vInt 0)] =
      { output := none
        state_changed := false
        final_state := [("a", Value.vInt 0)]
        error := some "ZeroDivisionError: division by zero" } :=
  C9_error_path bodyRaise [] [] [("a", Value.vInt 0)]
    { attributes := [("a", Value.vInt 0), ("x", Value.vInt 9)], p_changed := true }
    "ZeroDivisionError: division by zero" rfl

/-- If no vertex within the remaining depth budget declares the
method, the bounded walk comes back empty. -/
theorem resolveAux_none (s : Store) (m : String) :
    ∀ fuel k, (∀ k2 ∈ withinKeys s fuel k, methodAt s k2 m = none) →
      resolveAux s m fuel k = none := by
  intro fuel
  induction fuel with
  | zero => intro k _; rfl
  | succ fuel ih =>
    intro k h
    have hk : methodAt s k m = none := h k (by simp [withinKeys])
    unfold resolveAux
    cases hg : s.getObj k with
    | none => rfl
    | some obj =>
      have hm : lookupStr obj.methods m = none := by
        simpa [methodAt, hg] using hk
      simp only [hm]
      rw [List.findSome?_eq_none_iff]
      intro p hp
      apply ih
      intro k2 hk2
      apply h
      simp only [withinKeys, List.mem_cons, List.mem_flatMap]
      exact Or.inr ⟨p, hp, hk2⟩

/-- Soundness of the bounded walk: a hit returns a vertex stored in
the collection together with the body its `methods` mapping declares
under the requested name. -/
theorem resolveAux_sound (s : Store) (m : String) :
    ∀ fuel k k2 o c, resolveAux s m fuel k = some (k2, o, c) →
      s.getObj k2 = some o ∧ lookupStr o.methods m = some c := by
  intro fuel
  induction fuel with
  | zero => intro k k2 o c h; exact absurd h (by simp [resolveAux])
  | succ fuel ih =>
    intro k k2 o c h
    unfold resolveAux at h
    split at h
    · exact absurd h (by simp)
    · rename_i obj hg
      split at h
      · rename_i code hm
        simp only [Option.some.injEq, Prod.mk.injEq] at h
        obtain ⟨h1, h2, h3⟩ := h
        subst h1; subst h2; subst h3
        exact ⟨hg, hm⟩
      · obtain ⟨p, _, hps⟩ := List.exists_of_findSome?_eq_some h
        exact ih p k2 o c hps

/-- Claim C6: the resolver is the bounded walk of depths `0..100`
from the start object; whenever no vertex within that bound declares
the method — the chain being longer than the bound or cyclic
included — it returns the miss value (`None`), by computation rather
than by hanging or raising. -/
theorem C6_bounded_walk_miss (s : Store) (startId m : String)
    (h : ∀ k ∈ withinKeys s 101 startId, methodAt s k m = none) :
    resolve s startId m = none :=
  resolveAux_none s m 101 startId h

/-- The two-vertex cyclic prototype graph used as the boundary case. -/
def cycStore : Store :=
  { objects := [("a", { attributes := [], methods := [] }),
                ("b", { attributes := [], methods := [] })]
    edges := [("a", "b"), ("b", "a")] }

/-- Witness for `C6_bounded_walk_miss`: on the cyclic two-object
graph, where nothing declares `greet`, resolution terminates with the
miss value. -/
theorem C6_bounded_walk_miss_witness :
    (∀ k ∈ withinKeys cycStore 101 "a", methodAt cycStore k "greet" = none) ∧
      resolve cycStore "a" "greet" = none :=
  ⟨by decide, C6_bounded_walk_miss cycStore "a" "greet" (by decide)⟩

/-- A body that performs `self.attributes["n"] = 1` and honours the
Persistence Covenant with `self._p_changed = True`. -/
def bodyCommit : PyBody :=
  { run := fun _ _ s =>
      ({ attributes := setField s.attributes "n" (Value.vInt 1), p_changed := true },
       Except.ok Value.vNull) }

/-- On a resolution hit, the one payload ever posted to the sandbox
is built from the resolved body and the declaring object's own
attribute snapshot. -/
theorem raem_post_payload (sandbox : SandboxCall) (s : Store) (start m : String)
    (args : List Value) (kwargs : List (String × Value))
    (srcKey : String) (srcObj : StoreObj) (code : String) (p : SandboxPayload)
    (h : resolve s start m = some (srcKey, srcObj, code))
    (hp : Event.sandboxPost p ∈
      (resolve_and_execute_method sandbox s start m args kwargs).2.2) :
    p = { code := code
          method_name := m
          object_state := srcObj.attributes
          args := args
          kwargs := kwargs } := by
  unfold resolve_and_execute_method at hp
  simp only [h] at hp
  split at hp
  · simpa using hp
  · split at hp
    · simpa using hp
    · split at hp
      · simp only [List.mem_cons, List.not_mem_nil, or_false] at hp
        rcases hp with hp | hp
        · simpa using hp
        · simp at hp
      · simpa using hp

/-- On a resolution hit, any attribute write-back of the call targets
the declaring object's key. -/
theorem raem_persist_key (sandbox : SandboxCall) (s : Store) (start m : String)
    (args : List Value) (kwargs : List (String × Value))
    (srcKey : String) (srcObj : StoreObj) (code : String) (k2 : String) (attrs : Attrs)
    (h : resolve s start m = some (srcKey, srcObj, code))
    (hp : Event.persistAttrs k2 attrs ∈
      (resolve_and_execute_method sandbox s start m args kwargs).2.2) :
    k2 = srcKey := by
  unfold resolve_and_execute_method at hp
  simp only [h] at hp
  split at hp
  · simp at hp
  · split at hp
    · simp at hp
    · split at hp
      · simp only [List.mem_cons, List.not_mem_nil, or_false] at hp
        rcases hp with hp | hp
        · simp at hp
        · simp only [Event.persistAttrs.injEq] at hp
          exact hp.1
      · simp at hp

/-- Claim C7: when resolution lands on a declaring object (possibly a
proper ancestor of the target), every payload the client posts to the
sandbox carries the declaring object's own attribute snapshot and the
declaring object's body, and every attribute write-back of the call
goes to the declaring object's key. -/
theorem C7_runs_against_declaring_object
    (sandbox : SandboxCall) (s : Store) (start m : String)
    (args : List Value) (kwargs : List (String × Value))
    (srcKey : String) (srcObj : StoreObj) (code : String)
    (h : resolve s start m = some (srcKey, srcObj, code)) :
    s.getObj srcKey = some srcObj ∧
    (∀ p, Event.sandboxPost p ∈
        (resolve_and_execute_method sandbox s start m args kwargs).2.2 →
      p.object_state = srcObj.attributes ∧ p.code = code) ∧
    (∀ k2 attrs, Event.persistAttrs k2 attrs ∈
        (resolve_and_execute_method sandbox s start m args kwargs).2.2 →
      k2 = srcKey) := by
  refine ⟨(resolveAux_sound s m 101 start srcKey srcObj code h).1, ?_, ?_⟩
  · intro p hp
    have := raem_post_payload sandbox s start m args kwargs srcKey srcObj code p h hp
    subst this
    exact ⟨rfl, rfl⟩
  · intro k2 attrs hp
    exact raem_persist_key sandbox s start m args kwargs srcKey srcObj code k2 attrs h hp

/-- Two-object delegation chain: `a` delegates to `b` and only `b`
declares `m`; their attributes differ. -/
def chainStore : Store :=
  { objects :=
      [("a", { attributes := [("owner", Value.vStr "a")], methods := [] }),
       ("b", { attributes := [("owner", Value.vStr "b")],
               methods := [("m", "def m(self): self.n = 1")] })]
    edges := [("a", "b")] }

/-- Witness for `C7_runs_against_declaring_object` on the concrete
chain: dispatching to `a` resolves on `b`, the sandbox receives `b`'s
snapshot (not `a`'s), and the write-back goes to `b`. -/
theorem C7_runs_against_declaring_object_witness :
    resolve chainStore "a" "m" =
      some ("b",
        { attributes := [("owner", Value.vStr "b")],
          methods := [("m", "def m(self): self.n = 1")] },
        "def m(self): self.n = 1") ∧
    (∀ p, Event.sandboxPost p ∈
        (resolve_and_execute_method (sandboxOf bodyCommit) chainStore "a" "m" [] []).2.2 →
      p.object_state = [("owner", Value.vStr "b")] ∧ p.code = "def m(self): self.n = 1") ∧
    (∀ k2 attrs, Event.persistAttrs k2 attrs ∈
        (resolve_and_execute_method (sandboxOf bodyCommit) chainStore "a" "m" [] []).2.2 →
      k2 = "b") := by
  have h : resolve chainStore "a" "m" =
      some ("b",
        { attributes := [("owner", Value.vStr "b")],
          methods := [("m", "def m(self): self.n = 1")] },
        "def m(self): self.n = 1") := rfl
  refine ⟨h, ?_, ?_⟩
  · exact (C7_runs_against_declaring_object (sandboxOf bodyCommit) chainStore "a" "m"
      [] [] _ _ _ h).2.1
  · exact (C7_runs_against_declaring_object (sandboxOf bodyCommit) chainStore "a" "m"
      [] [] _ _ _ h).2.2

/-- Reading back the patched document: the stored attribute object is
the `mergeObjects` merge of the old object with the patch. -/
theorem getObj_updateAttrsMerge (s : Store) (k : String) (patch : Attrs) :
    (s.updateAttrsMerge k patch).getObj k =
      (s.getObj k).map
        (fun o => { o with attributes := mergeFields o.attributes patch }) := by
  obtain ⟨objs, edges⟩ := s
  unfold Store.updateAttrsMerge Store.getObj
  simp only []
  induction objs with
  | nil => rfl
  | cons a l ih =>
    by_cases hk : a.1 = k
    · simp [List.find?_cons, hk]
    · simp only [List.map_cons, List.find?_cons, hk, if_false, decide_eq_true_eq]
      simp only [decide_False]
      exact ih

/-- Claim C8 as amended: after a mutating execution whose write to
the store succeeds, reading the declaring object back yields the
ArangoDB merge of its pre-execution attributes with the reported
`final_attributes` — which coincides with `final_attributes` exactly
when that merge changes nothing (in particular whenever the patch
drops no key of the old mapping). -/
theorem C8_roundtrip_merge (sandbox : SandboxCall) (s : Store) (start m : String)
    (args : List Value) (kwargs : List (String × Value))
    (srcKey : String) (srcObj : StoreObj) (code : String) (resp : SandboxResponse)
    (h : resolve s start m = some (srcKey, srcObj, code))
    (hs : sandbox { code := code
                    method_name := m
                    object_state := srcObj.attributes
                    args := args
                    kwargs := kwargs } = some resp)
    (he : resp.error = none)
    (hc : resp.state_changed = true) :
    ((resolve_and_execute_method sandbox s start m args kwargs).2.1.get_object
        srcKey).map StoreObj.attributes =
      some (mergeFields srcObj.attributes resp.final_state) ∧
    (mergeFields srcObj.attributes resp.final_state = resp.final_state →
      ((resolve_and_execute_method sandbox s start m args kwargs).2.1.get_object
          srcKey).map StoreObj.attributes = some resp.final_state) := by
  have hobj : s.getObj srcKey = some srcObj :=
    (resolveAux_sound s m 101 start srcKey srcObj code h).1
  have key :
      ((resolve_and_execute_method sandbox s start m args kwargs).2.1.get_object
          srcKey).map StoreObj.attributes =
        some (mergeFields srcObj.attributes resp.final_state) := by
    unfold resolve_and_execute_method
    simp only [h, hs, he, hc, Option.isSome_none, Bool.false_eq_true, if_false, if_true]
    unfold Store.get_object
    rw [getObj_updateAttrsMerge, hobj]
    rfl
  exact ⟨key, fun hmf => by rw [key, hmf]⟩

/-- A body that replaces the whole attribute mapping with the empty
dictionary and commits: `self.attributes = dict(); self._p_changed =
True`. -/
def bodyClear : PyBody :=
  { run := fun _ _ _ =>
      ({ attributes := [], p_changed := true }, Except.ok Value.vNull) }

/-- One object whose method drops its only attribute key. -/
def c8store : Store :=
  { objects :=
      [("b", { attributes := [("x", Value.vInt 1)],
               methods := [("m", "def m(self): self.attributes = dict()")] })]
    edges := [] }

/-- Claim C8, counterexample: a successful mutating execution reports
`final_attributes = {}`, yet — because the store write is a
merge-objects patch — reading the object back still yields
`{x: 1}`, which differs from the reported `final_attributes`. -/
theorem C8_counterexample :
    ((resolve_and_execute_method (sandboxOf bodyClear) c8store "b" "m" [] []).1).map
        MethodExecutionResult.state_changed = some true ∧
    (execute_code bodyClear [] [] [("x", Value.vInt 1)]).final_state = [] ∧
    ((resolve_and_execute_method (sandboxOf bodyClear) c8store "b" "m" [] []).2.1.get_object
        "b").map StoreObj.attributes = some [("x", Value.vInt 1)] ∧
    some [("x", Value.vInt 1)] ≠ some ([] : Attrs) := by
  refine ⟨rfl, rfl, rfl, ?_⟩
  simp

/-- One object whose method overwrites its only attribute in place. -/
def c8wStore : Store :=
  { objects :=
      [("c", { attributes := [("n", Value.vInt 0)],
               methods := [("m", "def m(self): self.n = 1")] })]
    edges := [] }

/-- Witness for `C8_roundtrip_merge`: when the patch keeps every old
key, the read-back equals the reported `final_attributes`. -/
theorem C8_roundtrip_merge_witness :
    ((resolve_and_execute_method (sandboxOf bodyCommit) c8wStore "c" "m" [] []).2.1.get_object
        "c").map StoreObj.attributes = some [("n", Value.vInt 1)] :=
  (C8_roundtrip_merge (sandboxOf bodyCommit) c8wStore "c" "m" [] [] "c"
      { attributes := [("n", Value.vInt 0)], methods := [("m", "def m(self): self.n = 1")] }
      "def m(self): self.n = 1"
      { output := some Value.vNull
        state_changed := true
        final_state := [("n", Value.vInt 1)]
        error := none }
      rfl rfl rfl rfl).2 rfl

/-- Environment for the execution-fault run: the sandbox runs the
raising body, the generator has nothing to offer, parsing is
irrelevant, installation would succeed. -/
def envC1 : Env :=
  { sandbox := sandboxOf bodyRaise
    gen := fun _ _ => ""
    parse := fun _ => ParseResult.syntaxError
    installOk := fun _ _ => true }

/-- A store whose target object genuinely declares the method. -/
def c1store : Store :=
  { objects :=
      [("t", { attributes := [("a", Value.vInt 0)],
               methods := [("m", "def m(self): return 1 / 0")] })]
    edges := [] }

/-- Claim C1, divergence run: the dispatch resolves (a genuine hit,
not a miss), the body raises inside the sandbox — yet
`process_message` receives `None` from
`resolve_and_execute_method` and therefore enters the
`doesNotUnderstand` generation path, ultimately answering
`{"error": "Code generation failed"}` instead of surfacing the
execution fault. -/
theorem C1_exec_fault_enters_generation :
    (resolve c1store "t" "m").isSome = true ∧
    (sandboxOf bodyRaise
        { code := "def m(self): return 1 / 0"
          method_name := "m"
          object_state := [("a", Value.vInt 0)]
          args := []
          kwargs := [] }).map SandboxResponse.error =
      some (some "ZeroDivisionError: division by zero") ∧
    (process_message envC1 1 c1store "t" "m" [] []).1 =
      Outcome.errorMsg "Code generation failed" ∧
    (process_message envC1 1 c1store "t" "m" [] []).2.2 =
      [Event.sandboxPost
        { code := "def m(self): return 1 / 0"
          method_name := "m"
          object_state := [("a", Value.vInt 0)]
          args := []
          kwargs := [] },
       Event.generateCall "m" ""] :=
  ⟨rfl, rfl, rfl, rfl⟩

/-! ### `UvmObject` attribute-protocol lemmas -/

theorem lookupField_setField_self (fs : List (String × Value)) (k : String) (v : Value) :
    lookupField (setField fs k v) k = some v := by
  induction fs with
  | nil => simp [setField, lookupField]
  | cons a l ih =>
    by_cases hk : a.1 = k
    · obtain ⟨a1, a2⟩ := a
      simp only at hk
      simp [setField, lookupField, hk]
    · obtain ⟨a1, a2⟩ := a
      simp only at hk
      simp [setField, lookupField, hk, ih]

theorem lookupField_setField_ne (fs : List (String × Value)) (k k2 : String) (v : Value)
    (h : k2 ≠ k) : lookupField (setField fs k v) k2 = lookupField fs k2 := by
  induction fs with
  | nil => simp [setField, lookupField, Ne.symm h]
  | cons a l ih =>
    obtain ⟨a1, a2⟩ := a
    by_cases hk : a1 = k
    · subst hk
      simp [setField, lookupField, Ne.symm h]
    · by_cases h2 : a1 = k2 <;> simp [setField, lookupField, hk, h2, ih, h]

theorem lookupField_none_of_outside (fs : List (String × Value)) (name : String)
    (hfs : ∀ kv ∈ fs, startsWithUnderscore kv.1 = true)
    (hn : startsWithUnderscore name = false) : lookupField fs name = none := by
  induction fs with
  | nil => rfl
  | cons a l ih =>
    obtain ⟨a1, a2⟩ := a
    have ha := hfs (a1, a2) (by simp)
    have hne : a1 ≠ name := by
      intro e; rw [e] at ha; rw [ha] at hn; exact absurd hn (by simp)
    simp only [lookupField, hne, if_false]
    exact ih (fun kv hkv => hfs kv (List.mem_cons_of_mem _ hkv))

theorem setField_preserves_underscore (fs : List (String × Value)) (k : String) (v : Value)
    (hfs : ∀ kv ∈ fs, startsWithUnderscore kv.1 = true) (hk : startsWithUnderscore k = true) :
    ∀ kv ∈ setField fs k v, startsWithUnderscore kv.1 = true := by
  induction fs with
  | nil => intro kv hkv; simp [setField] at hkv; subst hkv; exact hk
  | cons a l ih =>
    obtain ⟨a1, a2⟩ := a
    intro kv hkv
    by_cases he : a1 = k
    · simp only [setField, he, if_true] at hkv
      rcases List.mem_cons.mp hkv with h1 | h1
      · subst h1; exact hk
      · exact hfs kv (List.mem_cons_of_mem _ h1)
    · simp only [setField, he, if_false] at hkv
      rcases List.mem_cons.mp hkv with h1 | h1
      · subst h1; exact hfs (a1, a2) (by simp)
      · exact ih (fun kv2 hkv2 => hfs kv2 (List.mem_cons_of_mem _ hkv2)) kv h1

/-- Claim C10 as amended: a regular assignment (no leading
underscore, not `attributes`/`methods`) inserts into the `attributes`
mapping and sets `_p_changed` to `True`; a subsequent read of the
same name returns the assigned value unless the name is shadowed by a
class attribute (`to_doc`/`from_doc`), in which case the read returns
the bound class method instead; an underscore assignment or an
assignment to `attributes`/`methods` bypasses the `attributes`
mapping and leaves the `_p_changed` flag unchanged — except an
assignment to `_p_changed` itself, which (being the flag) takes the
assigned value. -/
theorem C10_setattr_protocol (o : UvmObject) (name : String) (v : Value)
    (hwf : o.slotsWF) :
    (startsWithUnderscore name = false → name ≠ "attributes" → name ≠ "methods" →
      (o.setAttr name v).attributes = setField o.attributes name v ∧
      (o.setAttr name v).pFlag = some (Value.vBool true) ∧
      (uvmClassAttrs.contains name = false →
        (o.setAttr name v).getAttr name = GetAttrResult.value v) ∧
      (uvmClassAttrs.contains name = true →
        (o.setAttr name v).getAttr name = GetAttrResult.boundClassMethod name)) ∧
    (startsWithUnderscore name = true →
      (o.setAttr name v).attributes = o.attributes ∧
      (o.setAttr name v).methods = o.methods ∧
      (name ≠ "_p_changed" → (o.setAttr name v).pFlag = o.pFlag)) ∧
    ((name = "attributes" ∨ name = "methods") →
      (o.setAttr name v).slots = o.slots ∧
      (o.setAttr name v).pFlag = o.pFlag) := by
  refine ⟨?_, ?_, ?_⟩
  · intro hu ha hm
    have hset : o.setAttr name v =
        { o with
          attributes := setField o.attributes name v
          slots := setField o.slots "_p_changed" (Value.vBool true) } := by
      simp [UvmObject.setAttr, hu, ha, hm]
    have hnone : lookupField (setField o.slots "_p_changed" (Value.vBool true)) name = none :=
      lookupField_none_of_outside _ name
        (setField_preserves_underscore o.slots _ _ hwf (by decide)) hu
    refine ⟨by rw [hset], ?_, ?_, ?_⟩
    · rw [hset]
      exact lookupField_setField_self o.slots "_p_changed" (Value.vBool true)
    · intro hc
      rw [hset]
      unfold UvmObject.getAttr
      simp only [ha, hm, if_false]
      rw [hnone]
      simp only [hc, Bool.false_eq_true, if_false]
      unfold UvmObject.getattrFallback
      simp only [lookupField_setField_self]
    · intro hc
      rw [hset]
      unfold UvmObject.getAttr
      simp only [ha, hm, if_false]
      rw [hnone]
      simp only [hc, if_true]
  · intro hu
    have hset : o.setAttr name v = { o with slots := setField o.slots name v } := by
      simp [UvmObject.setAttr, hu]
    refine ⟨by rw [hset], by rw [hset], ?_⟩
    intro hp
    rw [hset]
    unfold UvmObject.pFlag
    exact lookupField_setField_ne o.slots name "_p_changed" v (fun e => hp e.symm)
  · intro hnm
    have hu : startsWithUnderscore name = false := by
      rcases hnm with h | h <;> subst h <;> decide
    rcases hnm with h | h <;> subst h <;>
      simp [UvmObject.setAttr, UvmObject.pFlag, hu]

/-- A freshly constructed object, as `UvmObject()` builds it. -/
def freshObj : UvmObject := UvmObject.init none none [] []

/-- Claim C10, counterexample: two of its universally quantified
clauses fail.  First, `_p_changed` is itself an underscore-prefixed
name and assigning to it does change the `_p_changed` flag.  Second,
`to_doc` is a regular name (no underscore, not
`attributes`/`methods`), yet after assigning to it the read returns
the bound class method — the class attribute shadows the stored
value, so "a subsequent attribute read of the same name returns that
value" fails as well. -/
theorem C10_counterexample :
    ((startsWithUnderscore "_p_changed" = true) ∧
      (freshObj.setAttr "_p_changed" (Value.vBool true)).attributes = freshObj.attributes ∧
      freshObj.pFlag = some (Value.vBool false) ∧
      (freshObj.setAttr "_p_changed" (Value.vBool true)).pFlag = some (Value.vBool true) ∧
      (freshObj.setAttr "_p_changed" (Value.vBool true)).pFlag ≠ freshObj.pFlag) ∧
    ((startsWithUnderscore "to_doc" = false ∧ "to_doc" ≠ "attributes" ∧
        "to_doc" ≠ "methods") ∧
      (freshObj.setAttr "to_doc" (Value.vInt 5)).attributes = [("to_doc", Value.vInt 5)] ∧
      (freshObj.setAttr "to_doc" (Value.vInt 5)).getAttr "to_doc" =
        GetAttrResult.boundClassMethod "to_doc" ∧
      (freshObj.setAttr "to_doc" (Value.vInt 5)).getAttr "to_doc" ≠
        GetAttrResult.value (Value.vInt 5)) := by
  refine ⟨⟨by decide, rfl, rfl, rfl, ?_⟩, ⟨by decide, rfl, rfl, ?_⟩⟩
  · intro h
    simp [freshObj, UvmObject.init, UvmObject.setAttr, UvmObject.pFlag, setField,
      lookupField] at h
  · intro h
    rw [show (freshObj.setAttr "to_doc" (Value.vInt 5)).getAttr "to_doc" =
        GetAttrResult.boundClassMethod "to_doc" from rfl] at h
    exact absurd h (by simp)

/-- Witness for `C10_setattr_protocol`: the regular assignment
`obj.greeting = "hi"` on a fresh object, with `greeting` unshadowed
by any class attribute. -/
theorem C10_setattr_protocol_witness :
    UvmObject.slotsWF freshObj ∧
    ((freshObj.setAttr "greeting" (Value.vStr "hi")).attributes =
        [("greeting", Value.vStr "hi")] ∧
      (freshObj.setAttr "greeting" (Value.vStr "hi")).pFlag = some (Value.vBool true) ∧
      (freshObj.setAttr "greeting" (Value.vStr "hi")).getAttr "greeting" =
        GetAttrResult.value (Value.vStr "hi")) := by
  have hwf : UvmObject.slotsWF freshObj := by
    show ∀ kv ∈ freshObj.slots, startsWithUnderscore kv.1 = true
    decide
  have h := (C10_setattr_protocol freshObj "greeting" (Value.vStr "hi") hwf).1
    (by decide) (by decide) (by decide)
  exact ⟨hwf, h.1, h.2.1, h.2.2.1 (by decide)⟩

/-! ### Where method bodies can live: the store's code inventory -/

/-- Every method body installed anywhere in the store. -/
def Store.codes (s : Store) : List String :=
  s.objects.flatMap (fun kv => kv.2.methods.map (fun e => e.2))

theorem lookupStr_mem (fs : List (String × String)) (k v : String)
    (h : lookupStr fs k = some v) : (k, v) ∈ fs := by
  induction fs with
  | nil => exact absurd h (by simp [lookupStr])
  | cons a l ih =>
    obtain ⟨a1, a2⟩ := a
    by_cases hk : a1 = k
    · subst hk
      simp only [lookupStr, if_true, eq_self_iff_true, Option.some.injEq] at h
      subst h
      exact List.mem_cons_self _ _
    · simp only [lookupStr, hk, if_false] at h
      exact List.mem_cons_of_mem _ (ih h)

theorem getObj_mem (s : Store) (k : String) (o : StoreObj)
    (h : s.getObj k = some o) : ∃ kv ∈ s.objects, kv.2 = o := by
  unfold Store.getObj at h
  cases hf : s.objects.find? (fun kv => kv.1 = k) with
  | none => rw [hf] at h; exact absurd h (by simp)
  | some kv =>
    rw [hf] at h
    simp only [Option.some.injEq] at h
    exact ⟨kv, List.mem_of_find?_eq_some hf, h⟩

/-- A resolved body is one of the store's installed bodies. -/
theorem resolve_code_mem (s : Store) (start m : String)
    (srcKey : String) (srcObj : StoreObj) (code : String)
    (h : resolve s start m = some (srcKey, srcObj, code)) : code ∈ s.codes := by
  obtain ⟨hobj, hcode⟩ := resolveAux_sound s m 101 start srcKey srcObj code h
  obtain ⟨kv, hkv, hkvo⟩ := getObj_mem s srcKey srcObj hobj
  unfold Store.codes
  rw [List.mem_flatMap]
  refine ⟨kv, hkv, ?_⟩
  rw [List.mem_map]
  exact ⟨(m, code), by rw [hkvo]; exact lookupStr_mem _ _ _ hcode, rfl⟩

/-- Persisting attributes never touches any `methods` mapping. -/
theorem codes_updateAttrsMerge (s : Store) (k : String) (patch : Attrs) :
    (s.updateAttrsMerge k patch).codes = s.codes := by
  obtain ⟨objs, edges⟩ := s
  unfold Store.updateAttrsMerge Store.codes
  simp only []
  induction objs with
  | nil => rfl
  | cons a l ih => by_cases hk : a.1 = k <;> simp [hk, ih]

/-- Values of the patched `methods` mapping of `install_method`: the
old bodies plus the newly installed one. -/
theorem mem_values_install (ms : List (String × String)) (m g c : String)
    (h : c ∈ ((if (lookupStr ms m).isSome then
        ms.map (fun e => if e.1 = m then (m, g) else e)
      else
        ms ++ [(m, g)]).map (fun e => e.2))) :
    c ∈ ms.map (fun e => e.2) ∨ c = g := by
  split at h
  · obtain ⟨e, he, hec⟩ := List.mem_map.mp h
    obtain ⟨e2, he2, hee⟩ := List.mem_map.mp he
    by_cases hm : e2.1 = m
    · rw [← hee] at hec
      simp only [hm, if_true] at hec
      exact Or.inr hec.symm
    · rw [← hee] at hec
      simp only [hm, if_false] at hec
      exact Or.inl (List.mem_map.mpr ⟨e2, he2, hec⟩)
  · rw [List.map_append] at h
    rcases List.mem_append.mp h with h1 | h1
    · exact Or.inl h1
    · simp only [List.map_cons, List.map_nil, List.mem_singleton] at h1
      exact Or.inr h1

/-- Bodies in the store after an installation: an old body or the
installed one. -/
theorem mem_codes_installMethod (s : Store) (t m g c : String)
    (h : c ∈ (s.installMethod t m g).codes) : c ∈ s.codes ∨ c = g := by
  obtain ⟨objs, edges⟩ := s
  unfold Store.installMethod Store.codes at h
  unfold Store.codes
  simp only [] at h ⊢
  induction objs with
  | nil => simp at h
  | cons a l ih =>
    rw [List.map_cons, List.flatMap_cons] at h
    rcases List.mem_append.mp h with h1 | h1
    · by_cases hk : a.1 = t
      · simp only [hk, if_true] at h1
        rcases mem_values_install a.2.methods m g c h1 with h2 | h2
        · exact Or.inl (by rw [List.flatMap_cons]; exact List.mem_append.mpr (Or.inl h2))
        · exact Or.inr h2
      · simp only [hk, if_false] at h1
        exact Or.inl (by rw [List.flatMap_cons]; exact List.mem_append.mpr (Or.inl h1))
    · rcases ih h1 with h2 | h2
      · exact Or.inl (by rw [List.flatMap_cons]; exact List.mem_append.mpr (Or.inr h2))
      · exact Or.inr h2

/-! ### Trace facts about `resolve_and_execute_method` -/

/-- The client's trace holds only sandbox posts and attribute
write-backs — in particular it never installs anything. -/
theorem raem_events (sandbox : SandboxCall) (s : Store) (start m : String)
    (args : List Value) (kwargs : List (String × Value)) (ev : Event)
    (h : ev ∈ (resolve_and_execute_method sandbox s start m args kwargs).2.2) :
    (∃ p, ev = Event.sandboxPost p) ∨ ∃ k a, ev = Event.persistAttrs k a := by
  cases hres : resolve s start m with
  | none =>
    unfold resolve_and_execute_method at h
    rw [hres] at h
    simp at h
  | some r =>
    obtain ⟨srcKey, srcObj, code⟩ := r
    unfold resolve_and_execute_method at h
    simp only [hres] at h
    split at h
    · simp only [List.mem_singleton] at h
      exact Or.inl ⟨_, h⟩
    · split at h
      · simp only [List.mem_singleton] at h
        exact Or.inl ⟨_, h⟩
      · split at h
        · simp only [List.mem_cons, List.not_mem_nil, or_false] at h
          rcases h with h | h
          · exact Or.inl ⟨_, h⟩
          · exact Or.inr ⟨_, _, h⟩
        · simp only [List.mem_singleton] at h
          exact Or.inl ⟨_, h⟩

/-- Every body the client posts to the sandbox is one of the store's
installed bodies. -/
theorem raem_exec_code_mem (sandbox : SandboxCall) (s : Store) (start m : String)
    (args : List Value) (kwargs : List (String × Value)) (p : SandboxPayload)
    (hp : Event.sandboxPost p ∈
      (resolve_and_execute_method sandbox s start m args kwargs).2.2) :
    p.code ∈ s.codes := by
  cases hres : resolve s start m with
  | none =>
    unfold resolve_and_execute_method at hp
    rw [hres] at hp
    simp at hp
  | some r =>
    obtain ⟨srcKey, srcObj, code⟩ := r
    have := raem_post_payload sandbox s start m args kwargs srcKey srcObj code p hres hp
    subst this
    exact resolve_code_mem s start m srcKey srcObj code hres

/-- The client never changes the set of installed bodies. -/
theorem raem_codes (sandbox : SandboxCall) (s : Store) (start m : String)
    (args : List Value) (kwargs : List (String × Value)) :
    (resolve_and_execute_method sandbox s start m args kwargs).2.1.codes = s.codes := by
  cases hres : resolve s start m with
  | none =>
    unfold resolve_and_execute_method
    rw [hres]
  | some r =>
    obtain ⟨srcKey, srcObj, code⟩ := r
    unfold resolve_and_execute_method
    simp only [hres]
    split
    · rfl
    · split
      · rfl
      · split
        · exact codes_updateAttrsMerge s _ _
        · rfl

/-- A run that comes back `None` leaves the store untouched. -/
theorem raem_store_unchanged (sandbox : SandboxCall) (s : Store) (start m : String)
    (args : List Value) (kwargs : List (String × Value))
    (h : (resolve_and_execute_method sandbox s start m args kwargs).1 = none) :
    (resolve_and_execute_method sandbox s start m args kwargs).2.1 = s := by
  cases hres : resolve s start m with
  | none =>
    unfold resolve_and_execute_method
    rw [hres]
  | some r =>
    obtain ⟨srcKey, srcObj, code⟩ := r
    unfold resolve_and_execute_method at h ⊢
    simp only [hres] at h ⊢
    cases hx : sandbox { code := code
                         method_name := m
                         object_state := srcObj.attributes
                         args := args
                         kwargs := kwargs } with
    | none => simp only [hx]
    | some resp =>
      simp only [hx] at h ⊢
      by_cases he : resp.error.isSome = true
      · simp only [he, if_true]
      · simp only [he, if_false] at h ⊢
        by_cases hc : resp.state_changed = true
        · rw [if_pos hc] at h
          simp at h
        · rw [if_neg hc]
          simp

/-! ### Branch equations of the orchestrator -/

theorem pm_succ_some (env : Env) (fuel : Nat) (s : Store) (t m : String)
    (args : List Value) (kwargs : List (String × Value)) (res : MethodExecutionResult)
    (h : (resolve_and_execute_method env.sandbox s t m args kwargs).1 = some res) :
    process_message env (fuel + 1) s t m args kwargs =
      (Outcome.success res.output res.state_changed,
       (resolve_and_execute_method env.sandbox s t m args kwargs).2.1,
       (resolve_and_execute_method env.sandbox s t m args kwargs).2.2) := by
  simp only [process_message, h]

theorem pm_succ_none (env : Env) (fuel : Nat) (s : Store) (t m : String)
    (args : List Value) (kwargs : List (String × Value))
    (h : (resolve_and_execute_method env.sandbox s t m args kwargs).1 = none) :
    process_message env (fuel + 1) s t m args kwargs =
      ((does_not_understand_step env
          (fun s2 t2 m2 a2 k2 => process_message env fuel s2 t2 m2 a2 k2)
          (resolve_and_execute_method env.sandbox s t m args kwargs).2.1
          t m args kwargs).1,
       (does_not_understand_step env
          (fun s2 t2 m2 a2 k2 => process_message env fuel s2 t2 m2 a2 k2)
          (resolve_and_execute_method env.sandbox s t m args kwargs).2.1
          t m args kwargs).2.1,
       (resolve_and_execute_method env.sandbox s t m args kwargs).2.2 ++
         (does_not_understand_step env
            (fun s2 t2 m2 a2 k2 => process_message env fuel s2 t2 m2 a2 k2)
            (resolve_and_execute_method env.sandbox s t m args kwargs).2.1
            t m args kwargs).2.2) := by
  simp only [process_message, h]

theorem dnu_step_gen_fail (env : Env)
    (retry : Store → String → String → List Value → List (String × Value) →
      Outcome × Store × List Event)
    (s : Store) (t m : String) (args : List Value) (kwargs : List (String × Value))
    (h : env.gen (mandateOf m args kwargs) m = "") :
    does_not_understand_step env retry s t m args kwargs =
      (Outcome.errorMsg "Code generation failed", s, [Event.generateCall m ""]) := by
  unfold does_not_understand_step
  simp only [h, if_true, if_pos rfl]

theorem dnu_step_audit_fail (env : Env)
    (retry : Store → String → String → List Value → List (String × Value) →
      Outcome × Store × List Event)
    (s : Store) (t m : String) (args : List Value) (kwargs : List (String × Value))
    (hg : env.gen (mandateOf m args kwargs) m ≠ "")
    (ha : audit (env.parse (env.gen (mandateOf m args kwargs) m)) = false) :
    does_not_understand_step env retry s t m args kwargs =
      (Outcome.errorMsg "Security audit failed", s,
       [Event.generateCall m (env.gen (mandateOf m args kwargs) m),
        Event.auditCall (env.gen (mandateOf m args kwargs) m) false]) := by
  unfold does_not_understand_step
  simp only [hg, ha, if_false, Bool.false_eq_true]

theorem dnu_step_install_ok (env : Env)
    (retry : Store → String → String → List Value → List (String × Value) →
      Outcome × Store × List Event)
    (s : Store) (t m : String) (args : List Value) (kwargs : List (String × Value))
    (hg : env.gen (mandateOf m args kwargs) m ≠ "")
    (ha : audit (env.parse (env.gen (mandateOf m args kwargs) m)) = true)
    (hi : env.installOk t m = true) :
    does_not_understand_step env retry s t m args kwargs =
      ((retry (s.installMethod t m (env.gen (mandateOf m args kwargs) m))
          t m args kwargs).1,
       (retry (s.installMethod t m (env.gen (mandateOf m args kwargs) m))
          t m args kwargs).2.1,
       [Event.generateCall m (env.gen (mandateOf m args kwargs) m),
        Event.auditCall (env.gen (mandateOf m args kwargs) m) true,
        Event.installCall t m (env.gen (mandateOf m args kwargs) m),
        Event.redispatch t m] ++
         (retry (s.installMethod t m (env.gen (mandateOf m args kwargs) m))
            t m args kwargs).2.2) := by
  unfold does_not_understand_step
  simp only [hg, ha, hi, if_false, if_true]

theorem dnu_step_install_fail (env : Env)
    (retry : Store → String → String → List Value → List (String × Value) →
      Outcome × Store × List Event)
    (s : Store) (t m : String) (args : List Value) (kwargs : List (String × Value))
    (hg : env.gen (mandateOf m args kwargs) m ≠ "")
    (ha : audit (env.parse (env.gen (mandateOf m args kwargs) m)) = true)
    (hi : env.installOk t m = false) :
    does_not_understand_step env retry s t m args kwargs =
      (Outcome.errorMsg "Method installation failed", s,
       [Event.generateCall m (env.gen (mandateOf m args kwargs) m),
        Event.auditCall (env.gen (mandateOf m args kwargs) m) true]) := by
  unfold does_not_understand_step
  simp only [hg, ha, hi, if_false, if_true, Bool.false_eq_true]

/-- The audit gate, across the whole recursion: with a store whose
bodies all satisfy the invariant "already installed at the start or
audit-passed", every installation event carries an audit-passed body,
every body sent to the Executor satisfies the invariant, and the
final store still satisfies it. -/
theorem pm_audit_safety (env : Env) :
    ∀ (fuel : Nat) (s0 s : Store) (t m : String) (args : List Value)
      (kwargs : List (String × Value)),
      (∀ c ∈ s.codes, c ∈ s0.codes ∨ audit (env.parse c) = true) →
      (∀ t2 m2 c, Event.installCall t2 m2 c ∈
          (process_message env fuel s t m args kwargs).2.2 →
        audit (env.parse c) = true) ∧
      (∀ p, Event.sandboxPost p ∈
          (process_message env fuel s t m args kwargs).2.2 →
        p.code ∈ s0.codes ∨ audit (env.parse p.code) = true) ∧
      (∀ c ∈ (process_message env fuel s t m args kwargs).2.1.codes,
        c ∈ s0.codes ∨ audit (env.parse c) = true) := by
  intro fuel
  induction fuel with
  | zero =>
    intro s0 s t m args kwargs hinv
    refine ⟨?_, ?_, ?_⟩
    · intro t2 m2 c hc
      simp [process_message] at hc
    · intro p hp
      simp [process_message] at hp
    · intro c hc
      exact hinv c hc
  | succ fuel ih =>
    intro s0 s t m args kwargs hinv
    by_cases hr : (resolve_and_execute_method env.sandbox s t m args kwargs).1 = none
    · rw [pm_succ_none env fuel s t m args kwargs hr]
      rw [raem_store_unchanged env.sandbox s t m args kwargs hr]
      by_cases hg : env.gen (mandateOf m args kwargs) m = ""
      · rw [dnu_step_gen_fail env _ s t m args kwargs hg]
        refine ⟨?_, ?_, ?_⟩
        · intro t2 m2 c hc
          rcases List.mem_append.mp hc with h1 | h1
          · rcases raem_events env.sandbox s t m args kwargs _ h1 with ⟨p, he⟩ | ⟨k, a, he⟩ <;>
              exact absurd he (by simp)
          · simp at h1
        · intro p hp
          rcases List.mem_append.mp hp with h1 | h1
          · exact Or.elim (hinv p.code
              (raem_exec_code_mem env.sandbox s t m args kwargs p h1)) Or.inl Or.inr
          · simp at h1
        · intro c hc
          exact hinv c hc
      · by_cases ha : audit (env.parse (env.gen (mandateOf m args kwargs) m)) = true
        · by_cases hi : env.installOk t m = true
          · rw [dnu_step_install_ok env _ s t m args kwargs hg ha hi]
            have hinv1 : ∀ c ∈ (s.installMethod t m
                (env.gen (mandateOf m args kwargs) m)).codes,
                c ∈ s0.codes ∨ audit (env.parse c) = true := by
              intro c hc
              rcases mem_codes_installMethod s t m _ c hc with h1 | h1
              · exact hinv c h1
              · subst h1
                exact Or.inr ha
            obtain ⟨ih1, ih2, ih3⟩ := ih s0
              (s.installMethod t m (env.gen (mandateOf m args kwargs) m))
              t m args kwargs hinv1
            refine ⟨?_, ?_, ?_⟩
            · intro t2 m2 c hc
              rcases List.mem_append.mp hc with h1 | h1
              · rcases raem_events env.sandbox s t m args kwargs _ h1 with ⟨p, he⟩ | ⟨k, a, he⟩ <;>
                  exact absurd he (by simp)
              · rcases List.mem_append.mp h1 with h2 | h2
                · simp only [List.mem_cons, List.not_mem_nil, or_false] at h2
                  rcases h2 with h3 | h3 | h3 | h3
                  · exact absurd h3 (by simp)
                  · exact absurd h3 (by simp)
                  · simp only [Event.installCall.injEq] at h3
                    rw [h3.2.2]
                    exact ha
                  · exact absurd h3 (by simp)
                · exact ih1 t2 m2 c h2
            · intro p hp
              rcases List.mem_append.mp hp with h1 | h1
              · exact Or.elim (hinv p.code
                  (raem_exec_code_mem env.sandbox s t m args kwargs p h1)) Or.inl Or.inr
              · rcases List.mem_append.mp h1 with h2 | h2
                · simp only [List.mem_cons, List.not_mem_nil, or_false] at h2
                  rcases h2 with h3 | h3 | h3 | h3 <;> exact absurd h3 (by simp)
                · exact ih2 p h2
            · intro c hc
              exact ih3 c hc
          · rw [dnu_step_install_fail env _ s t m args kwargs hg ha
              (Bool.not_eq_true _ ▸ hi)]
            refine ⟨?_, ?_, ?_⟩
            · intro t2 m2 c hc
              rcases List.mem_append.mp hc with h1 | h1
              · rcases raem_events env.sandbox s t m args kwargs _ h1 with ⟨p, he⟩ | ⟨k, a, he⟩ <;>
                  exact absurd he (by simp)
              · simp only [List.mem_cons, List.not_mem_nil, or_false] at h1
                rcases h1 with h3 | h3 <;> exact absurd h3 (by simp)
            · intro p hp
              rcases List.mem_append.mp hp with h1 | h1
              · exact Or.elim (hinv p.code
                  (raem_exec_code_mem env.sandbox s t m args kwargs p h1)) Or.inl Or.inr
              · simp only [List.mem_cons, List.not_mem_nil, or_false] at h1
                rcases h1 with h3 | h3 <;> exact absurd h3 (by simp)
            · intro c hc
              exact hinv c hc
        · rw [dnu_step_audit_fail env _ s t m args kwargs hg
            (Bool.not_eq_true _ ▸ ha)]
          refine ⟨?_, ?_, ?_⟩
          · intro t2 m2 c hc
            rcases List.mem_append.mp hc with h1 | h1
            · rcases raem_events env.sandbox s t m args kwargs _ h1 with ⟨p, he⟩ | ⟨k, a, he⟩ <;>
                exact absurd he (by simp)
            · simp only [List.mem_cons, List.not_mem_nil, or_false] at h1
              rcases h1 with h3 | h3 <;> exact absurd h3 (by simp)
          · intro p hp
            rcases List.mem_append.mp hp with h1 | h1
            · exact Or.elim (hinv p.code
                (raem_exec_code_mem env.sandbox s t m args kwargs p h1)) Or.inl Or.inr
            · simp only [List.mem_cons, List.not_mem_nil, or_false] at h1
              rcases h1 with h3 | h3 <;> exact absurd h3 (by simp)
          · intro c hc
            exact hinv c hc
    · obtain ⟨res, hres⟩ := Option.ne_none_iff_exists'.mp hr
      rw [pm_succ_some env fuel s t m args kwargs res hres]
      refine ⟨?_, ?_, ?_⟩
      · intro t2 m2 c hc
        rcases raem_events env.sandbox s t m args kwargs _ hc with ⟨p, he⟩ | ⟨k, a, he⟩ <;>
          exact absurd he (by simp)
      · intro p hp
        exact Or.elim (hinv p.code
          (raem_exec_code_mem env.sandbox s t m args kwargs p hp)) Or.inl Or.inr
      · intro c hc
        rw [raem_codes env.sandbox s t m args kwargs] at hc
        exact hinv c hc

/-- Claim C2: across any run of the orchestrator — the retry path
included — every installation event carries an audit-passed body and
every body posted to the Executor was either already installed in the
store when the run began or has passed the audit; and when the run
misses and the generated body fails the audit, the caller receives
the audit-rejection error, the store is untouched, nothing is ever
installed, and only already-stored bodies were posted. -/
theorem C2_audit_gate (env : Env) (fuel : Nat) (s : Store) (t m : String)
    (args : List Value) (kwargs : List (String × Value)) :
    (∀ t2 m2 c, Event.installCall t2 m2 c ∈
        (process_message env fuel s t m args kwargs).2.2 →
      audit (env.parse c) = true) ∧
    (∀ p, Event.sandboxPost p ∈
        (process_message env fuel s t m args kwargs).2.2 →
      p.code ∈ s.codes ∨ audit (env.parse p.code) = true) ∧
    ((resolve_and_execute_method env.sandbox s t m args kwargs).1 = none →
      env.gen (mandateOf m args kwargs) m ≠ "" →
      audit (env.parse (env.gen (mandateOf m args kwargs) m)) = false →
      ∀ f, fuel = f + 1 →
      (process_message env fuel s t m args kwargs).1 =
          Outcome.errorMsg "Security audit failed" ∧
        (process_message env fuel s t m args kwargs).2.1 = s ∧
        (∀ t2 m2 c, Event.installCall t2 m2 c ∉
          (process_message env fuel s t m args kwargs).2.2) ∧
        (∀ p, Event.sandboxPost p ∈
            (process_message env fuel s t m args kwargs).2.2 →
          p.code ∈ s.codes)) := by
  obtain ⟨h1, h2, _⟩ :=
    pm_audit_safety env fuel s s t m args kwargs (fun c hc => Or.inl hc)
  refine ⟨h1, h2, ?_⟩
  intro hres hg ha f hf
  subst hf
  rw [pm_succ_none env f s t m args kwargs hres,
      raem_store_unchanged env.sandbox s t m args kwargs hres,
      dnu_step_audit_fail env _ s t m args kwargs hg ha]
  refine ⟨rfl, rfl, ?_, ?_⟩
  · intro t2 m2 c hc
    rcases List.mem_append.mp hc with hA | hA
    · rcases raem_events env.sandbox s t m args kwargs _ hA with ⟨p, he⟩ | ⟨k, a, he⟩ <;>
        exact absurd he (by simp)
    · simp only [List.mem_cons, List.not_mem_nil, or_false] at hA
      rcases hA with h3 | h3 <;> exact absurd h3 (by simp)
  · intro p hp
    rcases List.mem_append.mp hp with hA | hA
    · exact raem_exec_code_mem env.sandbox s t m args kwargs p hA
    · simp only [List.mem_cons, List.not_mem_nil, or_false] at hA
      rcases hA with h3 | h3 <;> exact absurd h3 (by simp)

/-- The parse tree of a generated body that calls `open`. -/
def astOpen : PyAst :=
  PyAst.other "Module" [PyAst.other "Expr" [PyAst.other "Call" [PyAst.nameNode "open"]]]

/-- Environment whose generator produces a file-open body. -/
def envC2 : Env :=
  { sandbox := fun _ => none
    gen := fun _ _ => "open(secret)"
    parse := fun _ => ParseResult.parsed astOpen
    installOk := fun _ _ => true }

/-- A store whose target object has no methods at all. -/
def c2store : Store :=
  { objects := [("t", { attributes := [], methods := [] })], edges := [] }

/-- Witness for `C2_audit_gate`: the generated file-open body fails
the audit, the caller gets the audit rejection, the store is
untouched, no install event exists, and nothing unaudited was
posted. -/
theorem C2_audit_gate_witness :
    (process_message envC2 1 c2store "t" "m" [] []).1 =
        Outcome.errorMsg "Security audit failed" ∧
      (process_message envC2 1 c2store "t" "m" [] []).2.1 = c2store ∧
      (∀ t2 m2 c, Event.installCall t2 m2 c ∉
        (process_message envC2 1 c2store "t" "m" [] []).2.2) ∧
      (∀ p, Event.sandboxPost p ∈
          (process_message envC2 1 c2store "t" "m" [] []).2.2 →
        p.code ∈ c2store.codes) :=
  (C2_audit_gate envC2 1 c2store "t" "m" [] []).2.2 rfl (by decide) rfl 0 rfl

/-! ### Claim C4: the retry path -/

/-- Does this event record a generation for method `m`? -/
def isGenerateFor (m : String) : Event → Bool
  | Event.generateCall m2 _ => m2 = m
  | _ => false

/-- Whatever happens inside `does_not_understand`, its trace starts
with the generation event for the missed method. -/
theorem dnu_step_starts_with_generate (env : Env)
    (retry : Store → String → String → List Value → List (String × Value) →
      Outcome × Store × List Event)
    (s : Store) (t m : String) (args : List Value) (kwargs : List (String × Value)) :
    ∃ rest, (does_not_understand_step env retry s t m args kwargs).2.2 =
      Event.generateCall m (env.gen (mandateOf m args kwargs) m) :: rest := by
  by_cases hg : env.gen (mandateOf m args kwargs) m = ""
  · rw [dnu_step_gen_fail env retry s t m args kwargs hg]
    exact ⟨[], by rw [hg]⟩
  · by_cases ha : audit (env.parse (env.gen (mandateOf m args kwargs) m)) = true
    · by_cases hi : env.installOk t m = true
      · rw [dnu_step_install_ok env retry s t m args kwargs hg ha hi]
        exact ⟨_, rfl⟩
      · rw [dnu_step_install_fail env retry s t m args kwargs hg ha
          (Bool.not_eq_true _ ▸ hi)]
        exact ⟨_, rfl⟩
    · rw [dnu_step_audit_fail env retry s t m args kwargs hg
        (Bool.not_eq_true _ ▸ ha)]
      exact ⟨_, rfl⟩

/-- Claim C4 as amended: after a passed audit and a successful
installation, `does_not_understand` re-issues the original request
exactly once (the equation exhibits the single re-dispatch of the
same request on the updated store); but no guard prevents re-entry —
whenever the retried dispatch itself again yields no result (for
instance because the installed body faults at execution), the
generation cycle for the very same (target, method) pair runs a
second time within the same top-level request. -/
theorem C4_redispatch_once_but_unguarded (env : Env) (fuel : Nat) (s : Store)
    (t m : String) (args : List Value) (kwargs : List (String × Value))
    (hg : env.gen (mandateOf m args kwargs) m ≠ "")
    (ha : audit (env.parse (env.gen (mandateOf m args kwargs) m)) = true)
    (hi : env.installOk t m = true) :
    does_not_understand env fuel s t m args kwargs =
      ((process_message env fuel
          (s.installMethod t m (env.gen (mandateOf m args kwargs) m)) t m args kwargs).1,
       (process_message env fuel
          (s.installMethod t m (env.gen (mandateOf m args kwargs) m)) t m args kwargs).2.1,
       [Event.generateCall m (env.gen (mandateOf m args kwargs) m),
        Event.auditCall (env.gen (mandateOf m args kwargs) m) true,
        Event.installCall t m (env.gen (mandateOf m args kwargs) m),
        Event.redispatch t m] ++
         (process_message env fuel
            (s.installMethod t m (env.gen (mandateOf m args kwargs) m)) t m args kwargs).2.2) ∧
    (∀ f, fuel = f + 1 →
      (resolve_and_execute_method env.sandbox
          (s.installMethod t m (env.gen (mandateOf m args kwargs) m))
          t m args kwargs).1 = none →
      2 ≤ ((does_not_understand env fuel s t m args kwargs).2.2.countP
        (isGenerateFor m))) := by
  have he : does_not_understand env fuel s t m args kwargs =
      ((process_message env fuel
          (s.installMethod t m (env.gen (mandateOf m args kwargs) m)) t m args kwargs).1,
       (process_message env fuel
          (s.installMethod t m (env.gen (mandateOf m args kwargs) m)) t m args kwargs).2.1,
       [Event.generateCall m (env.gen (mandateOf m args kwargs) m),
        Event.auditCall (env.gen (mandateOf m args kwargs) m) true,
        Event.installCall t m (env.gen (mandateOf m args kwargs) m),
        Event.redispatch t m] ++
         (process_message env fuel
            (s.installMethod t m (env.gen (mandateOf m args kwargs) m)) t m args kwargs).2.2) := by
    unfold does_not_understand
    rw [dnu_step_install_ok env _ s t m args kwargs hg ha hi]
  refine ⟨he, ?_⟩
  intro f hf hre
  rw [he]
  simp only [List.countP_append]
  subst hf
  rw [pm_succ_none env f _ t m args kwargs hre]
  obtain ⟨rest, hrest⟩ := dnu_step_starts_with_generate env
    (fun s2 t2 m2 a2 k2 => process_message env f s2 t2 m2 a2 k2)
    ((resolve_and_execute_method env.sandbox
        (s.installMethod t m (env.gen (mandateOf m args kwargs) m))
        t m args kwargs).2.1)
    t m args kwargs
  simp only [List.countP_append, hrest, List.countP_cons]
  have hone : isGenerateFor m
      (Event.generateCall m (env.gen (mandateOf m args kwargs) m)) = true := by
    simp [isGenerateFor]
  simp only [List.countP_cons, List.countP_nil, hone, if_true, isGenerateFor,
    decide_True, Bool.false_eq_true, if_false]
  omega

/-- The parse tree of a harmless generated body. -/
def astSafe : PyAst :=
  PyAst.other "Module" [PyAst.other "FunctionDef" []]

/-- Environment whose generator always returns the same body, which
passes the audit, installs fine — and raises when executed. -/
def envC4 : Env :=
  { sandbox := sandboxOf bodyRaise
    gen := fun _ _ => "def m(self): return 1 / 0"
    parse := fun _ => ParseResult.parsed astSafe
    installOk := fun _ _ => true }

/-- A store whose target object misses the method. -/
def c4store : Store :=
  { objects := [("t", { attributes := [], methods := [] })], edges := [] }

/-- Claim C4, counterexample: one top-level dispatch of `("t", "m")`
enters the miss-generate cycle three times (once per fuel level) for
the same (target, method) pair — the generated body faults at
execution, the fault is routed back into the miss path, and nothing
guards against regeneration. -/
theorem C4_counterexample :
    (process_message envC4 3 c4store "t" "m" [] []).2.2.countP (isGenerateFor "m") = 3 ∧
    (process_message envC4 3 c4store "t" "m" [] []).2.2.countP
      (fun e => match e with
        | Event.installCall _ _ _ => true
        | _ => false) = 3 :=
  ⟨rfl, rfl⟩

/-- Witness for `C4_redispatch_once_but_unguarded` on the concrete
self-regenerating run. -/
theorem C4_redispatch_once_but_unguarded_witness :
    2 ≤ ((does_not_understand envC4 3 c4store "t" "m" [] []).2.2.countP
      (isGenerateFor "m")) :=
  (C4_redispatch_once_but_unguarded envC4 3 c4store "t" "m" [] []
    (by decide) rfl rfl).2 2 rfl rfl

/-- Claim C5: the audit fails exactly on a parse failure or on the
presence of an import/module-loading construct, a reference to a
denylisted identifier (as a bare name or an attribute), or a deletion
statement — it passes only when none of these occur. -/
theorem C5_audit_characterization (p : ParseResult) :
    audit p = true ↔
      ∃ t, p = ParseResult.parsed t ∧ containsImport t = false ∧
        referencesDenied t = false ∧ containsDelete t = false := by
  cases p with
  | syntaxError => simp [audit]
  | parsed t =>
    simp only [audit, containsImport, referencesDenied, containsDelete,
      ParseResult.parsed.injEq, exists_eq_left', Bool.not_eq_true',
      List.any_eq_false, Bool.not_eq_true]
    constructor
    · intro h
      refine ⟨?_, ?_, ?_⟩ <;> intro n hn <;> have hb := h n hn <;>
        cases n <;> simp_all [bannedNode]
    · rintro ⟨h1, h2, h3⟩ n hn
      have e1 := h1 n hn
      have e2 := h2 n hn
      have e3 := h3 n hn
      cases n <;> simp_all [bannedNode]

end Aura
